import Mathlib

/-!
# bitalino-max: the acquisition worker, the bridging step and the scheduled consumer

A shallow embedding of `src/src/bitalino-max.cpp`.

* The object `t_bitalino` is a record; every C function that only touches the
  object becomes a function on that record.
* The process-wide flag `bitalino_busy`, the object and a trace of the
  thread and device calls form a `World`; the controller functions
  (`bitalino_connect`, `bitalino_stop`, ...) and the worker `bitalino_get`
  are functions on `World`.
* `std::queue<Frame>` is a list, front first.  `front()` on an empty queue is
  undefined behaviour in C++; it is modelled by `none`.
* The mutexes serialise whole function bodies and carry no data, so one call
  of a function is one step of the model.
-/

set_option maxRecDepth 100000

namespace Bitalino

/-! ## Constants (lines 34-38) -/

abbrev BIT_NFRAMES : Nat := 20
abbrev BIT_MAXFRAMES : Nat := 120
abbrev BIT_BT_REQUEST_INTERVAL : Nat := 10
abbrev BIT_ASYNC_POLL_INTERVAL : Nat := 20
abbrev BIT_DEF_SYNC_POLL_INTERVAL : Nat := 2

/-! ## Data model -/

/-- Modelled from the spec: the record `BITalino::Frame` is declared in
`bitalino.h`, which is not part of the sources.  The spec gives it as
`seq` (an unsigned integer), a fixed array of digital booleans and a fixed array
of six analog samples.  `seq` is kept as a natural number; where the code stores
it into the `unsigned char` marker the store is taken modulo 256. -/
structure Frame where
  seq : Nat
  digital : List Bool
  analog : Fin 6 → Int

/-- The window `*x->frames`: a `VFrame` of `BIT_NFRAMES` frames (line 138). -/
abbrev VFrame := Fin BIT_NFRAMES → Frame

/-- One message sent through the outlet: `outlet_anything(outlet, gensym(tag), 1, value)`. -/
abbrev OutMsg := String × Int

/-- The object record, `t_bitalino` (lines 44-68).  `systhread` is `none` for `NULL`;
`m_poll` holds the delay the clock is scheduled with, `none` when the clock is unset. -/
structure t_bitalino where
  systhread : Option Nat
  systhread_cancel : Bool
  sleeptime : Nat
  continuous : Bool
  frames : VFrame
  frame_buffer : List Frame
  frame_zero_id : Nat
  messages_out : Fin 6 → String
  m_poll : Option Rat
  poll_interval : Rat

/-- The window of a newly allocated `VFrame(BIT_NFRAMES)`: value-initialised frames. -/
def zero_frame : Frame := { seq := 0, digital := [false, false, false, false], analog := fun _ => 0 }

/-- The tags set up by `bitalino_new` (lines 123-128). -/
def messages_out_init : Fin 6 → String
  | 0 => "/A1"
  | 1 => "/A2"
  | 2 => "/A3"
  | 3 => "/A4"
  | 4 => "/A5"
  | 5 => "/A6"

/-- The constructor `bitalino_new` (lines 118-148); `object_alloc` zeroes the fields it does not set. -/
def bitalino_new : t_bitalino :=
  { systhread := none
    systhread_cancel := false
    sleeptime := BIT_BT_REQUEST_INTERVAL
    continuous := false
    frames := fun _ => zero_frame
    frame_buffer := []
    frame_zero_id := 0
    messages_out := messages_out_init
    m_poll := none
    poll_interval := BIT_DEF_SYNC_POLL_INTERVAL }

/-! ## The bridging step `bitalino_qfn` (lines 294-328) -/

/-- The copy loop `for(i=0; i<BIT_NFRAMES; i++) frame_buffer->push(frames[i])` (lines 302-316). -/
def qfn_push (frames : VFrame) (q : List Frame) : List Frame :=
  (List.finRange BIT_NFRAMES).foldl (fun acc i => acc ++ [frames i]) q

/-- The eviction loop `while(size() > BIT_MAXFRAMES) { front(); pop(); }` (lines 319-322). -/
def qfn_evict : List Frame → List Frame
  | [] => []
  | f :: rest => if (f :: rest).length > BIT_MAXFRAMES then qfn_evict rest else f :: rest

/-- The bridging step `bitalino_qfn`. -/
def bitalino_qfn (x : t_bitalino) : t_bitalino :=
  if x.frame_zero_id ≠ (x.frames 0).seq then
    let q1 := qfn_push x.frames x.frame_buffer
    let q2 := if x.continuous then qfn_evict q1 else q1
    { x with frame_zero_id := (x.frames 0).seq % 256, frame_buffer := q2 }
  else x

/-! ## The consumer tick `bitalino_bang` (lines 344-376) and `bitalino_clock` (lines 330-342) -/

/-- The inner loop `for(j=0; j<6; j++) outlet_anything(..., messages_out[j], analog[j])`. -/
def emit_frame (x : t_bitalino) (f : Frame) : List OutMsg :=
  (List.finRange 6).map (fun j => (x.messages_out j, f.analog j))

/-- The burst loop `while(!empty()) { f = front(); emit f; pop(); }` (lines 364-373):
the queue left and the messages sent, after `out`. -/
def bang_drain (x : t_bitalino) : List Frame → List OutMsg → List Frame × List OutMsg
  | [], out => ([], out)
  | f :: rest, out => bang_drain x rest (out ++ emit_frame x f)

/-- The tick `bitalino_bang`: the object afterwards and the messages sent, or `none` when
`front()` is called on the empty queue. -/
def bitalino_bang (x : t_bitalino) : Option (t_bitalino × List OutMsg) :=
  if x.continuous then
    match x.frame_buffer.head? with
    | none => none
    | some f =>
      let out := emit_frame x f
      let q := if x.frame_buffer.length > 1 && !x.frame_buffer.isEmpty
               then x.frame_buffer.tail else x.frame_buffer
      some ({ x with frame_buffer := q }, out)
  else
    let r := bang_drain x x.frame_buffer []
    some ({ x with frame_buffer := r.1 }, r.2)

/-- The clock callback `bitalino_clock`: re-arm, then tick. -/
def bitalino_clock (x : t_bitalino) : Option (t_bitalino × List OutMsg) :=
  let d : Rat := if x.continuous then x.poll_interval else BIT_ASYNC_POLL_INTERVAL
  bitalino_bang { x with m_poll := some d }

/-- The command `bitalino_nopoll`: `clock_unset`. -/
def bitalino_nopoll (x : t_bitalino) : t_bitalino := { x with m_poll := none }

/-- The command `bitalino_poll(x)`: `clock_fdelay(m_poll, 0.)`. -/
def bitalino_poll (x : t_bitalino) : t_bitalino := { x with m_poll := some 0 }

/-- The command `bitalino_poll(x, n)` (lines 418-427). -/
def bitalino_poll_n (x : t_bitalino) (n : Int) : t_bitalino :=
  if n = 0 then bitalino_nopoll x else { x with poll_interval := n, m_poll := some 0 }

/-! ## The process: global flag, object, worker thread and trace -/

/-- Calls into the thread library and the device that the model records. -/
inductive Ev where
  | thread_create
  | thread_join
  | dev_read (attempt : Nat)
  | qelem_set
  | thread_sleep (t : Nat)
  | dev_stop
deriving DecidableEq

/-- What one `dev.read(*(x->frames))` does: it fills the window, or throws an exception whose
code is `CONTACTING_DEVICE`, or throws an exception with another code (the window is then
taken to be left as it was). -/
inductive ReadOutcome where
  | ok (batch : VFrame)
  | transient
  | contacting

/-- Where the thread function `bitalino_get` stands: no thread is executing it (none was
created, or it has returned); it is opening the device (lines 184-239, before line 241); or
it is inside the `while` loop (lines 245-273). -/
inductive Phase where
  | idle
  | opening
  | looping
deriving DecidableEq

/-- The global `bitalino_busy` (line 42), one object, where the worker thread stands, and the
trace of recorded calls. -/
structure World where
  bitalino_busy : Bool
  x : t_bitalino
  worker : Phase
  trace : List Ev

/-- The state after `main` (line 108) and `bitalino_new`. -/
def World.init : World :=
  { bitalino_busy := false, x := bitalino_new, worker := Phase.idle, trace := [] }

/-! ### The worker `bitalino_get` (lines 182-292), after the device has been opened -/

/-- Lines 241-242: the device is open and started. -/
def get_connected (w : World) : World :=
  { w with bitalino_busy := true, x := { w.x with systhread_cancel := false }, worker := Phase.looping }

/-- The body of the `while` loop after the cancel test (lines 251-272), for read attempt
number `n` with outcome `o`.  The flag returned is `true` when the body ends in `break`. -/
def get_body (n : Nat) (o : ReadOutcome) (w : World) : World × Bool :=
  let w1 : World := { w with trace := w.trace ++ [Ev.dev_read n] }
  match o with
  | ReadOutcome.contacting =>
    ({ w1 with x := bitalino_nopoll w1.x }, true)
  | ReadOutcome.transient =>
    ({ w1 with trace := w1.trace ++ [Ev.qelem_set, Ev.thread_sleep w1.x.sleeptime] }, false)
  | ReadOutcome.ok batch =>
    ({ w1 with x := { w1.x with frames := batch },
               trace := w1.trace ++ [Ev.qelem_set, Ev.thread_sleep w1.x.sleeptime] }, false)

/-- Lines 275-278: the code after the loop. -/
def get_exit (w : World) : World :=
  { w with trace := w.trace ++ [Ev.dev_stop], bitalino_busy := false,
           x := { w.x with systhread_cancel := false }, worker := Phase.idle }

/-- The loop `while (1)` (lines 245-273): `dev n` is the outcome of read attempt `n`;
`none` when the fuel runs out before the loop is left. -/
def get_loop (dev : Nat → ReadOutcome) : Nat → Nat → World → Option World
  | 0, _, _ => none
  | fuel + 1, n, w =>
    if w.x.systhread_cancel then some w
    else
      let r := get_body n (dev n) w
      if r.2 then some r.1 else get_loop dev fuel (n + 1) r.1

/-- The worker `bitalino_get` from the point where the device is started (line 241) to its
end (line 282); read attempts are numbered from 1. -/
def bitalino_get (dev : Nat → ReadOutcome) (fuel : Nat) (w : World) : Option World :=
  (get_loop dev fuel 1 (get_connected w)).map get_exit

/-- The command `bitalino_start` (lines 385-396).  The handle written by `systhread_create`
is the number of threads created so far, plus one. -/
def bitalino_start (w : World) : World :=
  if w.bitalino_busy then w
  else if w.x.systhread = none then
    { w with x := { w.x with systhread := some (w.trace.count Ev.thread_create + 1) },
             worker := Phase.opening,
             trace := w.trace ++ [Ev.thread_create] }
  else w

/-- The command `bitalino_connect` (lines 379-383). -/
def bitalino_connect (w : World) : World :=
  let w1 := bitalino_start w
  { w1 with x := bitalino_poll w1.x }

/-- A frame with sequence number `s` whose six analog values are `10*s+1 .. 10*s+6`. -/
def mkFrame (s : Nat) : Frame :=
  { seq := s, digital := [false, false, false, false], analog := fun j => 10 * (s : Int) + j.val + 1 }

/-- A window holding the sequence numbers `s .. s+19`. -/
def window_from (s : Nat) : VFrame := fun i => mkFrame (s + i.val)

/-- A device whose third read fails with `CONTACTING_DEVICE`. -/
def dev_fail3 : Nat → ReadOutcome
  | 1 => ReadOutcome.ok (window_from 0)
  | 2 => ReadOutcome.transient
  | 3 => ReadOutcome.contacting
  | n => ReadOutcome.ok (window_from (20 * n))

/-- The six messages one frame is sent as, with the tags of `bitalino_new`. -/
def six_msgs (f : Frame) : List OutMsg :=
  [("/A1", f.analog 0), ("/A2", f.analog 1), ("/A3", f.analog 2),
   ("/A4", f.analog 3), ("/A5", f.analog 4), ("/A6", f.analog 5)]

/-- The fresh object after the batches starting at 1, 21, ..., 121 were bridged in burst mode
with no tick in between. -/
def x_backlog : t_bitalino :=
  [1, 21, 41, 61, 81, 101, 121].foldl
    (fun x s => bitalino_qfn { x with frames := window_from s }) bitalino_new

/-- The trace of one read attempt that is followed by a signal and the throttle sleep. -/
def cycle_trace (t : Nat) (j : Nat) : List Ev := [Ev.dev_read j, Ev.qelem_set, Ev.thread_sleep t]

/-- A second object, never connected, while another object holds the device. -/
def world_busy : World := { World.init with bitalino_busy := true }

/-! ## Lemmas on the loops -/

theorem qfn_push_eq (frames : VFrame) (q : List Frame) :
    qfn_push frames q = q ++ List.ofFn frames := by
  have key : ∀ (l : List (Fin BIT_NFRAMES)) (acc : List Frame),
      l.foldl (fun acc i => acc ++ [frames i]) acc = acc ++ l.map frames := by
    intro l
    induction l with
    | nil => intro acc; simp
    | cons a l ih => intro acc; simp [ih]
  unfold qfn_push
  rw [key, List.ofFn_eq_map]

theorem qfn_evict_eq (q : List Frame) :
    qfn_evict q = q.drop (q.length - BIT_MAXFRAMES) := by
  induction q with
  | nil => simp [qfn_evict]
  | cons f rest ih =>
    unfold qfn_evict
    by_cases h : (f :: rest).length > BIT_MAXFRAMES
    · rw [if_pos h, ih]
      have h1 : rest.length + 1 > 120 := by simpa using h
      have h2 : (f :: rest).length - BIT_MAXFRAMES = (rest.length - BIT_MAXFRAMES) + 1 := by
        simp only [List.length_cons] at h ⊢; omega
      rw [h2, List.drop_succ_cons]
    · rw [if_neg h]
      have h1 : (f :: rest).length - BIT_MAXFRAMES = 0 := by
        simp only [List.length_cons] at h ⊢; omega
      rw [h1, List.drop_zero]

theorem bang_drain_eq (x : t_bitalino) (q : List Frame) (out : List OutMsg) :
    bang_drain x q out = ([], out ++ (q.map (emit_frame x)).flatten) := by
  induction q generalizing out with
  | nil => simp [bang_drain]
  | cons f rest ih => simp [bang_drain, ih]

theorem emit_frame_init (x : t_bitalino) (f : Frame) (h : x.messages_out = messages_out_init) :
    emit_frame x f = [("/A1", f.analog 0), ("/A2", f.analog 1), ("/A3", f.analog 2),
                      ("/A4", f.analog 3), ("/A5", f.analog 4), ("/A6", f.analog 5)] := by
  unfold emit_frame
  rw [h]
  rfl

/-! ## C1: the bridging step on an unchanged window -/

/-- C2 as stated fails: in continuous mode, with 140 frames queued and the marker equal to
the first sequence number of the window, the bridging step leaves 140 frames. -/
theorem qfn_continuous_bound_fails :
    ({ x_backlog with continuous := true } : t_bitalino).continuous = true
    ∧ ({ x_backlog with continuous := true } : t_bitalino).frame_buffer.length = 140
    ∧ ¬ ((bitalino_qfn { x_backlog with continuous := true }).frame_buffer.length ≤ BIT_MAXFRAMES) := by
  decide

/-- C2, amended: in continuous mode a bridging step that copies a batch leaves at most
`BIT_MAXFRAMES` frames, the last frame of the window at the back, and the queue is the old
queue followed by the window with only the oldest frames dropped; a bridging step that
copies nothing leaves the object as it was; so a queue of at most `BIT_MAXFRAMES` frames
stays so. -/
theorem qfn_continuous_bound (x : t_bitalino) (hc : x.continuous = true) :
    (x.frame_zero_id ≠ (x.frames 0).seq →
        (bitalino_qfn x).frame_buffer.length ≤ BIT_MAXFRAMES
        ∧ (bitalino_qfn x).frame_buffer.getLast? = some (x.frames (Fin.last 19))
        ∧ (bitalino_qfn x).frame_buffer
            = (x.frame_buffer ++ List.ofFn x.frames).drop
                ((x.frame_buffer.length + BIT_NFRAMES) - BIT_MAXFRAMES)
        ∧ (bitalino_qfn x).frame_buffer <:+ x.frame_buffer ++ List.ofFn x.frames)
    ∧ (x.frame_zero_id = (x.frames 0).seq → bitalino_qfn x = x)
    ∧ (x.frame_buffer.length ≤ BIT_MAXFRAMES →
        (bitalino_qfn x).frame_buffer.length ≤ BIT_MAXFRAMES) := by
  have hpush : x.frame_zero_id ≠ (x.frames 0).seq →
      (bitalino_qfn x).frame_buffer
        = (x.frame_buffer ++ List.ofFn x.frames).drop
            ((x.frame_buffer.length + BIT_NFRAMES) - BIT_MAXFRAMES) := by
    intro h
    simp only [bitalino_qfn, h, hc, if_true, ne_eq, not_false_eq_true, qfn_push_eq, qfn_evict_eq,
      List.length_append, List.length_ofFn]
  have hlen : x.frame_zero_id ≠ (x.frames 0).seq →
      (bitalino_qfn x).frame_buffer.length ≤ BIT_MAXFRAMES := by
    intro h
    rw [hpush h]
    simp only [List.length_drop, List.length_append, List.length_ofFn, BIT_NFRAMES, BIT_MAXFRAMES]
    omega
  have hsame : x.frame_zero_id = (x.frames 0).seq → bitalino_qfn x = x := by
    intro h
    simp [bitalino_qfn, h]
  refine ⟨fun h => ⟨hlen h, ?_, hpush h, ?_⟩, hsame, ?_⟩
  · rw [hpush h]
    have hwin : (List.ofFn x.frames).getLast? = some (x.frames (Fin.last 19)) := by
      rw [List.ofFn_succ', List.concat_eq_append, List.getLast?_concat]
    have hn : ¬ ((x.frame_buffer ++ List.ofFn x.frames).length
        ≤ x.frame_buffer.length + BIT_NFRAMES - BIT_MAXFRAMES) := by
      simp only [List.length_append, List.length_ofFn, BIT_NFRAMES, BIT_MAXFRAMES]
      omega
    rw [List.getLast?_drop, if_neg hn, List.getLast?_append, hwin]
    rfl
  · rw [hpush h]
    exact List.drop_suffix _ _
  · intro hle
    by_cases h : x.frame_zero_id = (x.frames 0).seq
    · rw [hsame h]; exact hle
    · exact hlen h

/-- C2, amended, at the fresh object in continuous mode with the window holding 100..119. -/
theorem qfn_continuous_bound_witness :
    ({ bitalino_new with continuous := true, frames := window_from 100 } : t_bitalino).continuous = true
    ∧ ({ bitalino_new with continuous := true, frames := window_from 100 } : t_bitalino).frame_zero_id
        ≠ ((({ bitalino_new with continuous := true, frames := window_from 100 } : t_bitalino).frames 0).seq)
    ∧ (bitalino_qfn { bitalino_new with continuous := true, frames := window_from 100 }).frame_buffer.length
        ≤ BIT_MAXFRAMES
    ∧ (bitalino_qfn { bitalino_new with continuous := true, frames := window_from 100 }).frame_buffer.getLast?
        = some (window_from 100 (Fin.last 19)) :=
  ⟨rfl, by decide,
    ((qfn_continuous_bound { bitalino_new with continuous := true, frames := window_from 100 } rfl).1
      (by decide)).1,
    ((qfn_continuous_bound { bitalino_new with continuous := true, frames := window_from 100 } rfl).1
      (by decide)).2.1⟩

/-! ## C3: the tick in burst mode -/

/-- C3: in burst mode `bitalino_bang` returns, leaves the queue empty and nothing else
changed, and sends exactly the six messages `/A1` .. `/A6` of every queued frame, front
first, once each. -/
theorem bang_burst_drains (x : t_bitalino) (hc : x.continuous = false)
    (hm : x.messages_out = messages_out_init) :
    bitalino_bang x
      = some ({ x with frame_buffer := [] }, (x.frame_buffer.map six_msgs).flatten) := by
  have hemit : emit_frame x = six_msgs := by
    funext f
    exact emit_frame_init x f hm
  simp [bitalino_bang, hc, bang_drain_eq, hemit]

/-- C3 at a queue of two frames. -/
theorem bang_burst_drains_witness :
    bitalino_bang { bitalino_new with frame_buffer := [mkFrame 5, mkFrame 6] }
      = some ({ bitalino_new with frame_buffer := [] },
          [("/A1", 51), ("/A2", 52), ("/A3", 53), ("/A4", 54), ("/A5", 55), ("/A6", 56),
           ("/A1", 61), ("/A2", 62), ("/A3", 63), ("/A4", 64), ("/A5", 65), ("/A6", 66)]) :=
  bang_burst_drains { bitalino_new with frame_buffer := [mkFrame 5, mkFrame 6] } rfl rfl

/-! ## C4: the tick in continuous mode -/

/-- C4: in continuous mode, on a queue with front `f`, `bitalino_bang` sends exactly the six
messages `/A1` .. `/A6` of `f`; the queue loses its front when it holds more than one frame
and is unchanged when it holds one, so it is not empty afterwards; nothing else changes. -/
theorem bang_continuous_front (x : t_bitalino) (f : Frame) (hc : x.continuous = true)
    (hm : x.messages_out = messages_out_init) (hq : x.frame_buffer.head? = some f) :
    bitalino_bang x
      = some ({ x with frame_buffer :=
                  if 1 < x.frame_buffer.length then x.frame_buffer.tail else x.frame_buffer },
              six_msgs f)
    ∧ (if 1 < x.frame_buffer.length then x.frame_buffer.tail else x.frame_buffer) ≠ [] := by
  constructor
  · have hne : x.frame_buffer.isEmpty = false := by
      cases hfb : x.frame_buffer with
      | nil => rw [hfb] at hq; simp at hq
      | cons a l => rfl
    simp only [bitalino_bang, hc, if_true, hq, emit_frame_init x f hm, hne, six_msgs,
      Bool.not_false, Bool.and_true, gt_iff_lt, decide_eq_true_eq]
  · cases hfb : x.frame_buffer with
    | nil => rw [hfb] at hq; simp at hq
    | cons a l =>
      cases l with
      | nil => simp
      | cons b l2 => simp

/-- C4 at the queue 5, 6, 7: frame 5 is sent and 6, 7 are left. -/
theorem bang_continuous_front_witness :
    (bitalino_bang { bitalino_new with continuous := true,
                                       frame_buffer := [mkFrame 5, mkFrame 6, mkFrame 7] }
      = some ({ bitalino_new with continuous := true, frame_buffer := [mkFrame 6, mkFrame 7] },
          [("/A1", 51), ("/A2", 52), ("/A3", 53), ("/A4", 54), ("/A5", 55), ("/A6", 56)]))
    ∧ ([mkFrame 6, mkFrame 7] : List Frame) ≠ [] :=
  bang_continuous_front
    { bitalino_new with continuous := true, frame_buffer := [mkFrame 5, mkFrame 6, mkFrame 7] }
    (mkFrame 5) rfl rfl rfl

/-! ## C6: the worker loop under a fatal device error -/

theorem get_body_continue (n : Nat) (o : ReadOutcome) (w : World) (ho : o ≠ ReadOutcome.contacting) :
    (get_body n o w).2 = false
    ∧ (get_body n o w).1.trace = w.trace ++ cycle_trace w.x.sleeptime n
    ∧ (get_body n o w).1.x.systhread_cancel = w.x.systhread_cancel
    ∧ (get_body n o w).1.x.sleeptime = w.x.sleeptime
    ∧ (get_body n o w).1.x.systhread = w.x.systhread
    ∧ (get_body n o w).1.x.frame_buffer = w.x.frame_buffer
    ∧ (get_body n o w).1.x.frame_zero_id = w.x.frame_zero_id
    ∧ (get_body n o w).1.bitalino_busy = w.bitalino_busy
    ∧ (get_body n o w).1.worker = w.worker := by
  cases o with
  | contacting => exact absurd rfl ho
  | transient => simp [get_body, cycle_trace]
  | ok batch => simp [get_body, cycle_trace]

theorem get_body_fatal (n : Nat) (w : World) :
    (get_body n ReadOutcome.contacting w).2 = true
    ∧ (get_body n ReadOutcome.contacting w).1.trace = w.trace ++ [Ev.dev_read n]
    ∧ (get_body n ReadOutcome.contacting w).1.x.m_poll = none
    ∧ (get_body n ReadOutcome.contacting w).1.x.systhread_cancel = w.x.systhread_cancel
    ∧ (get_body n ReadOutcome.contacting w).1.x.systhread = w.x.systhread
    ∧ (get_body n ReadOutcome.contacting w).1.x.frame_buffer = w.x.frame_buffer
    ∧ (get_body n ReadOutcome.contacting w).1.x.frame_zero_id = w.x.frame_zero_id
    ∧ (get_body n ReadOutcome.contacting w).1.bitalino_busy = w.bitalino_busy
    ∧ (get_body n ReadOutcome.contacting w).1.worker = w.worker := by
  simp [get_body, bitalino_nopoll]

/-- The loop entered at attempt `n` with the cancel flag clear, when the first fatal error
is at attempt `n + d`. -/
theorem get_loop_fatal (dev : Nat → ReadOutcome) (d : Nat) :
    ∀ (n fuel : Nat) (w : World), w.x.systhread_cancel = false →
      dev (n + d) = ReadOutcome.contacting →
      (∀ j, n ≤ j → j < n + d → dev j ≠ ReadOutcome.contacting) →
      d + 1 ≤ fuel →
      ∃ wf, get_loop dev fuel n w = some wf
        ∧ wf.trace = w.trace ++ ((List.range' n d).map (cycle_trace w.x.sleeptime)).flatten
            ++ [Ev.dev_read (n + d)]
        ∧ wf.x.m_poll = none
        ∧ wf.x.systhread_cancel = false
        ∧ wf.x.systhread = w.x.systhread
        ∧ wf.x.frame_buffer = w.x.frame_buffer
        ∧ wf.x.frame_zero_id = w.x.frame_zero_id
        ∧ wf.bitalino_busy = w.bitalino_busy
        ∧ wf.worker = w.worker := by
  induction d with
  | zero =>
    intro n fuel w hcan hfatal _ hfuel
    obtain ⟨fuel1, rfl⟩ : ∃ m, fuel = m + 1 := ⟨fuel - 1, by omega⟩
    have hb := get_body_fatal n w
    rw [Nat.add_zero] at hfatal
    refine ⟨(get_body n ReadOutcome.contacting w).1, ?_, ?_, hb.2.2.1, ?_, hb.2.2.2.2.1,
      hb.2.2.2.2.2.1, hb.2.2.2.2.2.2.1, hb.2.2.2.2.2.2.2.1, hb.2.2.2.2.2.2.2.2⟩
    · simp [get_loop, hcan, hfatal, hb.1]
    · simp [hb.2.1]
    · rw [hb.2.2.2.1, hcan]
  | succ d ih =>
    intro n fuel w hcan hfatal hearlier hfuel
    obtain ⟨fuel1, rfl⟩ : ∃ m, fuel = m + 1 := ⟨fuel - 1, by omega⟩
    have hn : dev n ≠ ReadOutcome.contacting := hearlier n (Nat.le_refl n) (by omega)
    have hb := get_body_continue n (dev n) w hn
    have hfatal1 : dev (n + 1 + d) = ReadOutcome.contacting := by
      rw [← hfatal]; congr 1; omega
    obtain ⟨wf, hrun, htr, hpoll, hcan1, hth, hq, hz, hbusy, hrunning⟩ :=
      ih (n + 1) fuel1 (get_body n (dev n) w).1 (by rw [hb.2.2.1, hcan]) hfatal1
        (fun j hj1 hj2 => hearlier j (by omega) (by omega)) (by omega)
    refine ⟨wf, ?_, ?_, hpoll, hcan1, ?_, ?_, ?_, ?_, ?_⟩
    · simp [get_loop, hcan, hb.1, hrun]
    · rw [htr, hb.2.1, hb.2.2.2.1]
      have harg : n + (d + 1) = n + 1 + d := by omega
      rw [harg]
      simp [List.range'_succ, List.append_assoc]
    · rw [hth, hb.2.2.2.2.1]
    · rw [hq, hb.2.2.2.2.2.1]
    · rw [hz, hb.2.2.2.2.2.2.1]
    · rw [hbusy, hb.2.2.2.2.2.2.2.1]
    · rw [hrunning, hb.2.2.2.2.2.2.2.2]

/-- C6: when the first `CONTACTING_DEVICE` error comes on read attempt `k`, the worker, given
fuel for `k` passes of the loop, ends; its trace is, for each attempt before `k`, the read,
the signal `qelem_set` and the throttle sleep, then read `k` with no signal, then
`dev.stop()`, and nothing after it; the clock is unset, `bitalino_busy` is false and the
cancel flag is false.  The thread handle, the queue and the marker are as before. -/
theorem get_fatal_stops (dev : Nat → ReadOutcome) (k fuel : Nat) (w : World)
    (hk : 1 ≤ k) (hfatal : dev k = ReadOutcome.contacting)
    (hearlier : ∀ j, 1 ≤ j → j < k → dev j ≠ ReadOutcome.contacting) (hfuel : k ≤ fuel) :
    ∃ wf, bitalino_get dev fuel w = some wf
      ∧ wf.trace = w.trace ++ ((List.range' 1 (k - 1)).map (cycle_trace w.x.sleeptime)).flatten
          ++ [Ev.dev_read k, Ev.dev_stop]
      ∧ wf.trace.count Ev.qelem_set = w.trace.count Ev.qelem_set + (k - 1)
      ∧ wf.x.m_poll = none
      ∧ wf.bitalino_busy = false
      ∧ wf.x.systhread_cancel = false
      ∧ wf.worker = Phase.idle
      ∧ wf.x.systhread = w.x.systhread
      ∧ wf.x.frame_buffer = w.x.frame_buffer
      ∧ wf.x.frame_zero_id = w.x.frame_zero_id := by
  have hk1 : 1 + (k - 1) = k := by omega
  obtain ⟨wl, hrun, htr, hpoll, _, hth, hq, hz, _, _⟩ :=
    get_loop_fatal dev (k - 1) 1 fuel (get_connected w) rfl (by rw [hk1]; exact hfatal)
      (fun j hj1 hj2 => hearlier j hj1 (by omega)) (by omega)
  have htrace : (get_exit wl).trace
      = w.trace ++ ((List.range' 1 (k - 1)).map (cycle_trace w.x.sleeptime)).flatten
          ++ [Ev.dev_read k, Ev.dev_stop] := by
    simp only [get_exit, htr, hk1, get_connected, List.append_assoc, List.singleton_append]
  have hcount : ∀ (l : List Nat) (t : Nat),
      ((l.map (cycle_trace t)).flatten).count Ev.qelem_set = l.length := by
    intro l t
    induction l with
    | nil => simp
    | cons a l ih =>
      simp only [List.map_cons, List.flatten_cons, List.count_append, ih, List.length_cons]
      simp [cycle_trace, List.count_cons]
      omega
  refine ⟨get_exit wl, ?_, htrace, ?_, ?_, rfl, rfl, rfl, ?_, ?_, ?_⟩
  · simp [bitalino_get, hrun]
  · rw [htrace]
    simp only [List.count_append, hcount, List.length_range']
    simp [List.count_cons]
  · simpa [get_exit] using hpoll
  · simpa [get_exit, get_connected] using hth
  · simpa [get_exit, get_connected] using hq
  · simpa [get_exit, get_connected] using hz

/-- C6 at `k = 3`: an accepted read, a transient failure, then `CONTACTING_DEVICE`. -/
theorem get_fatal_stops_witness :
    ∃ wf, bitalino_get dev_fail3 3 (bitalino_connect World.init) = some wf
      ∧ wf.trace = (bitalino_connect World.init).trace
          ++ ((List.range' 1 (3 - 1)).map
                (cycle_trace (bitalino_connect World.init).x.sleeptime)).flatten
          ++ [Ev.dev_read 3, Ev.dev_stop]
      ∧ wf.trace.count Ev.qelem_set
          = (bitalino_connect World.init).trace.count Ev.qelem_set + (3 - 1)
      ∧ wf.x.m_poll = none
      ∧ wf.bitalino_busy = false
      ∧ wf.x.systhread_cancel = false
      ∧ wf.worker = Phase.idle
      ∧ wf.x.systhread = (bitalino_connect World.init).x.systhread
      ∧ wf.x.frame_buffer = (bitalino_connect World.init).x.frame_buffer
      ∧ wf.x.frame_zero_id = (bitalino_connect World.init).x.frame_zero_id :=
  get_fatal_stops dev_fail3 3 3 (bitalino_connect World.init) (by decide) rfl
    (fun j hj1 hj2 => by
      have hj : j = 1 ∨ j = 2 := by omega
      rcases hj with rfl | rfl
      · simp [dev_fail3]
      · simp [dev_fail3])
    (Nat.le_refl 3)

/-! ## C9: disconnect -/

/-- In burst mode a batch whose first sequence number differs from the marker and fits it is
copied once, however many times the bridging step runs on it: the queue is the old queue
followed by the window, and the marker is the first sequence number. -/
theorem qfn_copies_once (x : t_bitalino) (n : Nat) (hc : x.continuous = false)
    (hne : x.frame_zero_id ≠ (x.frames 0).seq) (hfit : (x.frames 0).seq < 256) :
    (bitalino_qfn^[n + 1] x).frame_buffer = x.frame_buffer ++ List.ofFn x.frames
    ∧ (bitalino_qfn^[n + 1] x).frame_zero_id = (x.frames 0).seq := by
  have hstep : bitalino_qfn (bitalino_qfn x) = bitalino_qfn x := by
    simp [bitalino_qfn, hne, Nat.mod_eq_of_lt hfit]
  have hfix : bitalino_qfn^[n] (bitalino_qfn x) = bitalino_qfn x :=
    Function.iterate_fixed hstep n
  rw [Function.iterate_succ_apply, hfix]
  simp [bitalino_qfn, hne, hc, qfn_push_eq, Nat.mod_eq_of_lt hfit]

/-! ## C5, C7, C8, C10: the code at the inputs where it leaves the specification -/

/-- C5: `bitalino_connect` while `bitalino_busy` is true creates no thread and leaves the
flag, the handle, the cancel flag, the queue and the marker alone, but it schedules the
clock of the calling object, which was unset. -/
theorem connect_busy_arms_clock :
    world_busy.bitalino_busy = true
    ∧ world_busy.x.m_poll = none
    ∧ (bitalino_connect world_busy).x.m_poll = some 0
    ∧ (bitalino_connect world_busy).trace = world_busy.trace
    ∧ (bitalino_connect world_busy).bitalino_busy = true
    ∧ (bitalino_connect world_busy).x.systhread = none :=
  ⟨rfl, rfl, rfl, rfl, rfl, rfl⟩

/-- C7: on the fresh object a first batch whose first sequence number is 0 is not copied:
the queue is empty after the bridging step, and after the next batch (20..39) is bridged the
queue holds that batch only. -/
theorem qfn_first_batch_zero_lost :
    (bitalino_qfn { bitalino_new with frames := window_from 0 }).frame_buffer.length = 0
    ∧ (bitalino_qfn { bitalino_qfn { bitalino_new with frames := window_from 0 }
                        with frames := window_from 20 }).frame_buffer.map Frame.seq
        = List.range' 20 20 := by
  decide

/-- C8: after the worker of a connected object has ended on `CONTACTING_DEVICE`,
`bitalino_busy` is false but the thread handle is still set, and a following
`bitalino_connect` creates no thread: one thread was created in all, by the first
`bitalino_connect`. -/
theorem connect_after_fatal_no_thread :
    World.init.trace.count Ev.thread_create = 0
    ∧ (bitalino_connect World.init).trace.count Ev.thread_create = 1
    ∧ (bitalino_get dev_fail3 3 (bitalino_connect World.init)).map
          (fun w => (w.bitalino_busy, w.x.systhread, w.trace.count Ev.thread_create))
        = some (false, some 1, 1)
    ∧ (bitalino_get dev_fail3 3 (bitalino_connect World.init)).map
          (fun w => ((bitalino_connect w).x.systhread,
                     (bitalino_connect w).trace.count Ev.thread_create))
        = some (some 1, 1) := by
  decide

/-- C10: with the `continuous` attribute set on the fresh object, `bitalino_connect`
schedules the clock at delay 0 and the tick that follows calls `front()` on the empty
queue. -/
theorem bang_continuous_empty_front :
    (bitalino_connect { World.init with x := { bitalino_new with continuous := true } }).x.m_poll
        = some 0
    ∧ (bitalino_connect
          { World.init with x := { bitalino_new with continuous := true } }).x.frame_buffer.length
        = 0
    ∧ bitalino_clock
          (bitalino_connect { World.init with x := { bitalino_new with continuous := true } }).x
        = none :=
  ⟨rfl, rfl, rfl⟩

end Bitalino
